import Mathlib

/-!
# Verification of the DXF geometry normalizer (`tools/python/ezdxf_normalize.py`)

This file gives a shallow embedding of the geometry-normalization core of
`ezdxf_normalize.py` and proves/refutes the specification claims about it.

Modelling conventions:
* Python floats are modelled as real numbers (`ℝ`); `math.radians`,
  `math.cos`, `math.sin`, `math.hypot` become the corresponding real
  functions.
* The mutable output list `out` that the Python code appends to is modelled
  by returning the list of records each entity contributes; concatenation in
  traversal order is observationally the same as in-place appending.
* Diagnostics printed to stderr are modelled as a second returned list of
  strings (the separate diagnostics channel of the design).  Verbose-only
  informational prints are not modelled; the channel carries the warnings.
  The exact wording of a warning is abstracted.
* A per-branch `try/except` whose body raises during attribute extraction
  (before any append) is modelled by the `Entity.malformed` constructor:
  an entity of the given dxftype whose required-field access fails, so the
  handler of the branch emits one warning and no record.
* Unbounded Python recursion through nested INSERTs (terminated in CPython
  by `RecursionError`, which the `except` of the INSERT branch catches) is
  modelled with a fuel parameter; exhausted fuel yields the caught-failure
  outcome: no records, one warning.
-/

noncomputable section

open Real List

/-- Python `math.radians`: degrees to radians. -/
def radians (deg : ℝ) : ℝ := deg * (π / 180)

/-- Python `rot_point(x, y, ang_deg)`: rotate `(x, y)` by `ang_deg` degrees about the
origin. -/
def rot_point (x y ang_deg : ℝ) : ℝ × ℝ :=
  let ang := radians ang_deg
  let ca := Real.cos ang
  let sa := Real.sin ang
  (x * ca - y * sa, x * sa + y * ca)

/-- Python `transform_point(pt, insert, sx, sy, rotation)`: scale componentwise,
rotate by `rotation` degrees, then translate by `insert`. -/
def transform_point (pt insert : ℝ × ℝ) (sx sy rotation : ℝ) : ℝ × ℝ :=
  let x := pt.1 * sx
  let y := pt.2 * sy
  let r := rot_point x y rotation
  (r.1 + insert.1, r.2 + insert.2)

/-- Python `sample_arc(cx, cy, r, start_deg, end_deg, segments)`: convert the angles
to radians, add `2π` to the end angle when it is below the start angle, and
emit `segments + 1` points at linearly interpolated angles. -/
def sample_arc (cx cy r start_deg end_deg : ℝ) (segments : ℕ) : List (ℝ × ℝ) :=
  let start := radians start_deg
  let e0 := radians end_deg
  let e := if e0 < start then e0 + 2 * π else e0
  (List.range (segments + 1)).map fun (i : ℕ) =>
    (cx + r * Real.cos (start + (e - start) * ((i : ℝ) / (segments : ℝ))),
     cy + r * Real.sin (start + (e - start) * ((i : ℝ) / (segments : ℝ))))

/-- Python `sample_circle(cx, cy, r, segments)`: points at angles `2π·i/segments` for
`i < segments`; when the list is non-empty its first point is appended again
as a closing point. -/
def sample_circle (cx cy r : ℝ) (segments : ℕ) : List (ℝ × ℝ) :=
  let pts := (List.range segments).map fun (i : ℕ) =>
    (cx + r * Real.cos (2 * π * (i : ℝ) / (segments : ℝ)),
     cy + r * Real.sin (2 * π * (i : ℝ) / (segments : ℝ)))
  if pts.isEmpty then pts else pts ++ [pts.headI]

/-- Python `spline_to_poly(spline, segments)`: fit points verbatim when present,
otherwise nearest-index resampling of the control points into `segments + 1`
points, otherwise empty.  `int(i / segments * (len(control) - 1))` is the
floor of the real quotient (all quantities are non-negative). -/
def spline_to_poly (fit control : List (ℝ × ℝ)) (segments : ℕ) : List (ℝ × ℝ) :=
  if ¬ fit.isEmpty then fit
  else if ¬ control.isEmpty then
    (List.range (segments + 1)).map fun (i : ℕ) =>
      control.getD ⌊(i : ℝ) / (segments : ℝ) * ((control.length : ℝ) - 1)⌋.toNat (0, 0)
  else []

/-- The placement transform of an INSERT: the tuple
`(insert_pt, sx, sy, rotation)` the Python code passes as `parent_transform`. -/
structure Xform where
  insert : ℝ × ℝ
  sx : ℝ
  sy : ℝ
  rotation : ℝ

/-- Application `transform_point(p, *parent_transform)` of an active transform. -/
def applyT (t : Xform) (p : ℝ × ℝ) : ℝ × ℝ :=
  transform_point p t.insert t.sx t.sy t.rotation

/-- The source-entity variants `process_entity` dispatches on.
`lwpolyline` vertices carry the trailing per-vertex data `(x, y, *rest)`
that the code drops; `polyline` vertices carry `(x, y, z)` of which only
`x` and `y` are read.  `malformed t` is an entity of dxftype `t` whose
required-field access raises (see the file comment). -/
inductive Entity where
  | line (start stop : ℝ × ℝ)
  | lwpolyline (vertices : List ((ℝ × ℝ) × List ℝ))
  | polyline (vertices : List (ℝ × ℝ × ℝ))
  | circle (cx cy r : ℝ)
  | arc (cx cy r start_angle end_angle : ℝ)
  | ellipse (cx cy : ℝ) (major : ℝ × ℝ) ( ratio : ℝ)
  | spline (fit control : List (ℝ × ℝ))
  | insert (name : String) (insert_pt : ℝ × ℝ) (xscale yscale rot : ℝ)
  | other (dxftype : String)
  | malformed (dxftype : String)

/-- Output geometry records (`{"type": "polyline" | "circle" | "arc", ...}`). -/
inductive OutRec where
  | polyline (points : List (ℝ × ℝ))
  | circle (cx cy r : ℝ)
  | arc (cx cy r start stop : ℝ)
deriving DecidableEq

/-- The block table: `doc.blocks.get(name)`. -/
def BlockTable : Type := String → Option (List Entity)

/-- Concatenate per-entity results (records and diagnostics) in order. -/
def concatPairs (l : List (List OutRec × List String)) : List OutRec × List String :=
  l.foldr (fun a b => (a.1 ++ b.1, a.2 ++ b.2)) ([], [])

/-- Python `process_entity(e, out, approx_segs, explode_blocks, verbose, doc,
parent_transform)`: the per-entity normalizer.  Returns the records the
entity appends to `out` together with the warnings it prints. -/
def process_entity (doc : BlockTable) (approx_segs : ℕ)
    (explode_blocks verbose : Bool) :
    ℕ → Entity → Option Xform → List OutRec × List String
  | fuel, e, pt? =>
    match e with
    | .line start stop =>
        let s2 := match pt? with | some t => applyT t start | none => start
        let e2 := match pt? with | some t => applyT t stop | none => stop
        ([.polyline [s2, e2]], [])
    | .lwpolyline vertices =>
        let pts := vertices.map fun v => (v.1.1, v.1.2)
        let pts := match pt? with | some t => pts.map (applyT t) | none => pts
        ([.polyline pts], [])
    | .polyline vertices =>
        let pts := vertices.map fun v => (v.1, v.2.1)
        let pts := match pt? with | some t => pts.map (applyT t) | none => pts
        (if pts.isEmpty then [] else [.polyline pts], [])
    | .circle cx cy r =>
        (match pt? with
         | some t =>
             let pts := (sample_circle 0 0 r approx_segs).map fun p =>
               applyT t (p.1 + cx, p.2 + cy)
             [.polyline pts, .circle cx cy r]
         | none =>
             [.polyline (sample_circle cx cy r approx_segs), .circle cx cy r],
         [])
    | .arc cx cy r sa ea =>
        (match pt? with
         | some t =>
             let pts := (sample_arc 0 0 r sa ea approx_segs).map fun p =>
               applyT t (p.1 + cx, p.2 + cy)
             [.polyline pts, .arc cx cy r sa ea]
         | none =>
             [.polyline (sample_arc cx cy r sa ea approx_segs),
              .arc cx cy r sa ea],
         [])
    | .ellipse cx cy major ratio =>
        let rx := Real.sqrt (major.1 ^ 2 + major.2 ^ 2)
        let ry := rx * ratio
        let pts := (List.range approx_segs).map fun (i : ℕ) =>
          (cx + rx * Real.cos (2 * π * (i : ℝ) / (approx_segs : ℝ)),
           cy + ry * Real.sin (2 * π * (i : ℝ) / (approx_segs : ℝ)))
        let pts := match pt? with | some t => pts.map (applyT t) | none => pts
        ([.polyline pts], [])
    | .spline fit control =>
        let pts := spline_to_poly fit control approx_segs
        let pts := match pt? with | some t => pts.map (applyT t) | none => pts
        (if pts.isEmpty then [] else [.polyline pts], [])
    | .insert name insert_pt sx sy rot =>
        if explode_blocks then
          match doc name with
          | none => ([], ["Warning: Block not found: " ++ name])
          | some blk =>
              match fuel with
              | f + 1 =>
                  concatPairs (blk.map fun be =>
                    process_entity doc approx_segs explode_blocks verbose f be
                      (some ⟨insert_pt, sx, sy, rot⟩))
              | 0 => ([], ["Warning: INSERT expansion failed"])
        else ([], [])
    | .other _ => ([], [])
    | .malformed t => ([], ["Warning: " ++ t ++ " error"])

/-- The driver loop of `main`: process each top-level entity with no active
transform and accumulate records and warnings in order. -/
def process_all (doc : BlockTable) (approx_segs : ℕ)
    (explode_blocks verbose : Bool) (fuel : ℕ) (es : List Entity) :
    List OutRec × List String :=
  concatPairs (es.map fun e =>
    process_entity doc approx_segs explode_blocks verbose fuel e none)

/-- Default of the `--approx-segs` option in the argument parser of `main`. -/
def default_approx_segs : ℕ := 36

/-- Default of the own `segments` parameter of `sample_arc`. -/
def sample_arc_default : ℕ := 36

/-- Default of the own `segments` parameter of `sample_circle`. -/
def sample_circle_default : ℕ := 48

/-- Spec-side name for a source subexpression: the end angle (radians) of
`sample_arc` after the wraparound correction `end < start ⇒ end + 2π`. -/
def arc_end (start_deg end_deg : ℝ) : ℝ :=
  if radians end_deg < radians start_deg then radians end_deg + 2 * π
  else radians end_deg

/-- Spec-side: the standard 2-D rotation matrix of the specification. -/
def rotMatrix (a : ℝ) : Matrix (Fin 2) (Fin 2) ℝ :=
  Matrix.of ![![Real.cos a, -Real.sin a], ![Real.sin a, Real.cos a]]

/-- A concrete one-block table used to instantiate theorems that assume a
block lookup succeeds. -/
def oneBlockTable : BlockTable :=
  fun n => if n = "BLK" then some [.line (0, 0) (1, 0)] else none

/-! ## Helper lemmas about the samplers -/

lemma sample_circle_zero (cx cy r : ℝ) : sample_circle cx cy r 0 = [] := by
  simp [sample_circle]

/-- Closed form of `sample_circle` for a positive segment count: the sampled
points followed by a duplicate of the first point `(cx + r, cy)`. -/
lemma sample_circle_succ (cx cy r : ℝ) (k : ℕ) :
    sample_circle cx cy r (k + 1) =
      ((List.range (k + 1)).map fun (i : ℕ) =>
        (cx + r * Real.cos (2 * π * (i : ℝ) / ((k + 1 : ℕ) : ℝ)),
         cy + r * Real.sin (2 * π * (i : ℝ) / ((k + 1 : ℕ) : ℝ)))) ++
        [(cx + r, cy)] := by
  have h : List.range (k + 1) = 0 :: (List.range k).map Nat.succ :=
    List.range_succ_eq_map k
  simp only [sample_circle, h, List.map_cons, List.isEmpty_cons, List.headI_cons]
  norm_num

lemma sample_circle_length (cx cy r : ℝ) (k : ℕ) :
    (sample_circle cx cy r (k + 1)).length = k + 2 := by
  rw [sample_circle_succ, List.length_append, List.length_map, List.length_range]
  rfl

/-- Sampling an arc around the origin and shifting by the center equals
sampling around the center: the source trick
`transform_point([p[0] + cx, p[1] + cy], ...)` loses nothing. -/
lemma sample_arc_shift (cx cy r sd ed : ℝ) (s : ℕ) :
    (sample_arc 0 0 r sd ed s).map (fun p => (p.1 + cx, p.2 + cy)) =
      sample_arc cx cy r sd ed s := by
  simp only [sample_arc, List.map_map]
  refine List.map_congr_left fun i _ => ?_
  simp only [Function.comp_apply]
  simp only [Prod.mk.injEq]
  constructor <;> ring

/-- The same shift property for the circle sampler. -/
lemma sample_circle_shift (cx cy r : ℝ) (s : ℕ) :
    (sample_circle 0 0 r s).map (fun p => (p.1 + cx, p.2 + cy)) =
      sample_circle cx cy r s := by
  cases s with
  | zero => simp [sample_circle_zero]
  | succ k =>
    rw [sample_circle_succ, sample_circle_succ, List.map_append, List.map_map]
    congr 1
    · refine List.map_congr_left fun i _ => ?_
      simp only [Function.comp_apply, Prod.mk.injEq]
      constructor <;> ring
    · simp only [List.map_cons, List.map_nil, List.cons.injEq, and_true,
        Prod.mk.injEq]
      constructor <;> ring

/-! ## Claims -/

/-- C1: For every Circle or Arc entity, even inside a placed block
instance (an active placement transform `t`), the exact circle/arc record
emitted carries the local, pre-placement center, radius and (for
arcs) start/end angles of the entity, while the accompanying polyline points are
`transform_point(p, *t)` for each point `p` sampled from the circle/arc in
local space. -/
theorem circle_arc_exact_record_is_local (doc : BlockTable) (segs : ℕ)
    (eb vb : Bool) (fuel : ℕ) (t : Xform) (cx cy r sa ea : ℝ) :
    process_entity doc segs eb vb fuel (.circle cx cy r) (some t) =
      ([.polyline ((sample_circle cx cy r segs).map (applyT t)),
        .circle cx cy r], []) ∧
    process_entity doc segs eb vb fuel (.arc cx cy r sa ea) (some t) =
      ([.polyline ((sample_arc cx cy r sa ea segs).map (applyT t)),
        .arc cx cy r sa ea], []) := by
  constructor
  · rw [process_entity, ← sample_circle_shift cx cy r segs, List.map_map]
    rfl
  · rw [process_entity, ← sample_arc_shift cx cy r sa ea segs, List.map_map]
    rfl

/-- C10: A Circle or Arc entity that normalizes successfully contributes
exactly two records, the sampled polyline immediately before the exact
circle/arc record. -/
theorem circle_arc_two_records_polyline_first (doc : BlockTable) (segs : ℕ)
    (eb vb : Bool) (fuel : ℕ) (pt? : Option Xform) (cx cy r sa ea : ℝ) :
    (∃ pts, process_entity doc segs eb vb fuel (.circle cx cy r) pt? =
      ([.polyline pts, .circle cx cy r], [])) ∧
    (∃ pts, process_entity doc segs eb vb fuel (.arc cx cy r sa ea) pt? =
      ([.polyline pts, .arc cx cy r sa ea], [])) := by
  cases pt? with
  | none => exact ⟨⟨_, by rw [process_entity]⟩, ⟨_, by rw [process_entity]⟩⟩
  | some t => exact ⟨⟨_, by rw [process_entity]⟩, ⟨_, by rw [process_entity]⟩⟩

/-- C2: Expanding a block instance while another transform is active
normalizes the block entities under only the own placement
transform `{sx, sy, rot, translate = insert_pt}`, replacing (not composing
with) the transform active at the call site, and concatenates the results in
block-definition order. -/
theorem insert_replaces_active_transform (doc : BlockTable) (segs : ℕ)
    (vb : Bool) (fuel : ℕ) (name : String) (insert_pt : ℝ × ℝ)
    (sx sy rot : ℝ) (outer : Xform) (blk : List Entity)
    (h : doc name = some blk) :
    process_entity doc segs true vb (fuel + 1)
        (.insert name insert_pt sx sy rot) (some outer) =
      concatPairs (blk.map fun be =>
        process_entity doc segs true vb fuel be
          (some ⟨insert_pt, sx, sy, rot⟩)) ∧
    ∀ pt1? pt2? : Option Xform,
      process_entity doc segs true vb (fuel + 1)
          (.insert name insert_pt sx sy rot) pt1? =
        process_entity doc segs true vb (fuel + 1)
          (.insert name insert_pt sx sy rot) pt2? := by
  constructor
  · rw [process_entity, h]
    rfl
  · intro pt1? pt2?
    rw [process_entity, process_entity]

/-- Witness for C2 at a concrete one-block document and outer transform. -/
theorem insert_replaces_active_transform_witness :
    process_entity oneBlockTable 4 true false 1
        (.insert "BLK" (2, 3) 1 1 0) (some ⟨(9, 9), 2, 2, 45⟩) =
      concatPairs ([Entity.line (0, 0) (1, 0)].map fun be =>
        process_entity oneBlockTable 4 true false 0 be
          (some ⟨(2, 3), 1, 1, 0⟩)) :=
  (insert_replaces_active_transform oneBlockTable 4 false 0 "BLK" (2, 3)
    1 1 0 ⟨(9, 9), 2, 2, 45⟩ [Entity.line (0, 0) (1, 0)] rfl).1

/-- Lemma: `concatPairs` distributes over list append, componentwise. -/
lemma concatPairs_append (a b : List (List OutRec × List String)) :
    concatPairs (a ++ b) =
      ((concatPairs a).1 ++ (concatPairs b).1,
       (concatPairs a).2 ++ (concatPairs b).2) := by
  induction a with
  | nil => simp [concatPairs]
  | cons x xs ih => simp [concatPairs, List.foldr_cons] at ih ⊢; rw [ih]; simp

/-- Lemma: `process_all` splits over a split of the entity list. -/
lemma process_all_append (doc : BlockTable) (segs : ℕ) (eb vb : Bool)
    (fuel : ℕ) (l1 l2 : List Entity) :
    process_all doc segs eb vb fuel (l1 ++ l2) =
      ((process_all doc segs eb vb fuel l1).1 ++
         (process_all doc segs eb vb fuel l2).1,
       (process_all doc segs eb vb fuel l1).2 ++
         (process_all doc segs eb vb fuel l2).2) := by
  simp [process_all, List.map_append, concatPairs_append]

/-- One entity at the head of the traversal. -/
lemma process_all_cons (doc : BlockTable) (segs : ℕ) (eb vb : Bool)
    (fuel : ℕ) (e : Entity) (es : List Entity) :
    process_all doc segs eb vb fuel (e :: es) =
      ((process_entity doc segs eb vb fuel e none).1 ++
         (process_all doc segs eb vb fuel es).1,
       (process_entity doc segs eb vb fuel e none).2 ++
         (process_all doc segs eb vb fuel es).2) := by
  simp [process_all, concatPairs]

/-- C3: A failing entity (a block instance referencing a missing block;
an entity whose required-field access raises, e.g. a free-form curve whose
approximation fails) contributes zero records and one diagnostic; the
records accumulated before it are unchanged, and every sibling produces the
same records as it would had the failing entity been absent. -/
theorem failing_entity_fault_isolated (doc : BlockTable) (segs : ℕ)
    (vb : Bool) (fuel : ℕ) (pre post : List Entity) (name td : String)
    (insert_pt : ℝ × ℝ) (sx sy rot : ℝ)
    (h : doc name = none) :
    (process_entity doc segs true vb fuel
        (.insert name insert_pt sx sy rot) none).1 = [] ∧
    (process_entity doc segs true vb fuel
        (.insert name insert_pt sx sy rot) none).2.length = 1 ∧
    (process_entity doc segs true vb fuel (.malformed td) none).1 = [] ∧
    (process_entity doc segs true vb fuel (.malformed td) none).2.length = 1 ∧
    (process_all doc segs true vb fuel
        (pre ++ .insert name insert_pt sx sy rot :: post)).1 =
      (process_all doc segs true vb fuel (pre ++ post)).1 ∧
    (process_all doc segs true vb fuel (pre ++ .malformed td :: post)).1 =
      (process_all doc segs true vb fuel (pre ++ post)).1 ∧
    (process_all doc segs true vb fuel (pre ++ .malformed td :: post)).2 =
      (process_all doc segs true vb fuel pre).2 ++
        ("Warning: " ++ td ++ " error") ::
          (process_all doc segs true vb fuel post).2 := by
  have hins : process_entity doc segs true vb fuel
      (.insert name insert_pt sx sy rot) none =
      ([], ["Warning: Block not found: " ++ name]) := by
    rw [process_entity, h]
    rfl
  have hmal : process_entity doc segs true vb fuel (.malformed td) none =
      ([], ["Warning: " ++ td ++ " error"]) := by
    rw [process_entity]
  refine ⟨by simp [hins], by simp [hins], by simp [hmal], by simp [hmal],
    ?_, ?_, ?_⟩
  · rw [process_all_append, process_all_cons, process_all_append, hins]
    simp
  · rw [process_all_append, process_all_cons, process_all_append, hmal]
    simp
  · rw [process_all_append, process_all_cons, hmal]
    simp

/-- Witness for C3: a missing-block instance between two lines contributes
zero records and one diagnostic while its siblings are unaffected. -/
theorem failing_entity_fault_isolated_witness :
    (process_all oneBlockTable 4 true false 1
        ([Entity.line (0, 0) (1, 1)] ++
          Entity.insert "NOPE" (2, 3) 1 1 0 :: [Entity.line (5, 5) (6, 6)])).1 =
      (process_all oneBlockTable 4 true false 1
        ([Entity.line (0, 0) (1, 1)] ++ [Entity.line (5, 5) (6, 6)])).1 :=
  (failing_entity_fault_isolated oneBlockTable 4 false 1
    [Entity.line (0, 0) (1, 1)] [Entity.line (5, 5) (6, 6)] "NOPE" "SPLINE"
    (2, 3) 1 1 0 (by rw [oneBlockTable]; simp)).2.2.2.2.1

/-- C4: `transform_point` scales each axis independently, rotates the
scaled point by the rotation angle about the origin (standard 2-D rotation
matrix, degrees converted to radians), then adds the translation; in
particular `transform_point((1,0), (5,5), 2, 1, 90) = (5,7)`. -/
theorem transform_point_scale_rotate_translate :
    (∀ (pt insert : ℝ × ℝ) (sx sy rotdeg : ℝ),
      transform_point pt insert sx sy rotdeg =
        ((rotMatrix (radians rotdeg)).mulVec ![pt.1 * sx, pt.2 * sy] 0 +
           insert.1,
         (rotMatrix (radians rotdeg)).mulVec ![pt.1 * sx, pt.2 * sy] 1 +
           insert.2)) ∧
    transform_point (1, 0) (5, 5) 2 1 90 = (5, 7) := by
  constructor
  · intro pt insert sx sy rotdeg
    simp only [transform_point, rot_point, rotMatrix, Matrix.mulVec,
      Matrix.dotProduct, Fin.sum_univ_two, Matrix.of_apply,
      Matrix.cons_val_zero, Matrix.cons_val_one, Matrix.head_cons,
      Prod.mk.injEq]
    constructor <;> ring
  · have h90 : radians 90 = π / 2 := by rw [radians]; ring
    simp only [transform_point, rot_point, h90, Real.cos_pi_div_two,
      Real.sin_pi_div_two, Prod.mk.injEq]
    norm_num

/-- Lemma: `sample_arc` written with the spec-side names: points at linearly
interpolated angles from the start angle to the adjusted end angle. -/
lemma sample_arc_eq (cx cy r sd ed : ℝ) (s : ℕ) :
    sample_arc cx cy r sd ed s =
      (List.range (s + 1)).map fun (i : ℕ) =>
        (cx + r * Real.cos (radians sd +
           (arc_end sd ed - radians sd) * ((i : ℝ) / (s : ℝ))),
         cy + r * Real.sin (radians sd +
           (arc_end sd ed - radians sd) * ((i : ℝ) / (s : ℝ)))) := rfl

lemma sample_arc_length (cx cy r sd ed : ℝ) (s : ℕ) :
    (sample_arc cx cy r sd ed s).length = s + 1 := by
  rw [sample_arc_eq, List.length_map, List.length_range]

/-- The first sampled arc point sits at the start angle. -/
lemma sample_arc_head? (cx cy r sd ed : ℝ) (s : ℕ) :
    (sample_arc cx cy r sd ed s).head? =
      some (cx + r * Real.cos (radians sd), cy + r * Real.sin (radians sd)) := by
  rw [sample_arc_eq, List.range_succ_eq_map]
  simp

/-- The last sampled arc point sits at the adjusted end angle (positive
segment count). -/
lemma sample_arc_getLast? (cx cy r sd ed : ℝ) (k : ℕ) :
    (sample_arc cx cy r sd ed (k + 1)).getLast? =
      some (cx + r * Real.cos (arc_end sd ed),
            cy + r * Real.sin (arc_end sd ed)) := by
  have hne : (((k + 1 : ℕ) : ℝ)) ≠ 0 := Nat.cast_ne_zero.mpr (Nat.succ_ne_zero k)
  have harg : radians sd + (arc_end sd ed - radians sd) *
      (((k + 1 : ℕ) : ℝ) / ((k + 1 : ℕ) : ℝ)) = arc_end sd ed := by
    rw [div_self hne]; ring
  rw [sample_arc_eq, List.range_succ, List.map_append, List.map_cons,
    List.map_nil, List.getLast?_concat, harg]

/-- With a nonzero radius, a closed arc sample forces the swept angle to be
an integer multiple of `2π`. -/
lemma sample_arc_closed_imp (cx cy r sd ed : ℝ) (k : ℕ) (hr : r ≠ 0)
    (h : (sample_arc cx cy r sd ed (k + 1)).head? =
      (sample_arc cx cy r sd ed (k + 1)).getLast?) :
    ∃ n : ℤ, arc_end sd ed - radians sd = n * (2 * π) := by
  rw [sample_arc_head?, sample_arc_getLast?, Option.some.injEq,
    Prod.mk.injEq] at h
  have hc : Real.cos (radians sd) = Real.cos (arc_end sd ed) :=
    mul_left_cancel₀ hr (by linarith [h.1])
  have hs : Real.sin (radians sd) = Real.sin (arc_end sd ed) :=
    mul_left_cancel₀ hr (by linarith [h.2])
  have hone : Real.cos (radians sd - arc_end sd ed) = 1 := by
    rw [Real.cos_sub, hc, hs]
    calc Real.cos (arc_end sd ed) * Real.cos (arc_end sd ed) +
          Real.sin (arc_end sd ed) * Real.sin (arc_end sd ed)
        = Real.sin (arc_end sd ed) ^ 2 + Real.cos (arc_end sd ed) ^ 2 := by ring
      _ = 1 := Real.sin_sq_add_cos_sq _
  obtain ⟨n, hn⟩ := (Real.cos_eq_one_iff _).1 hone
  exact ⟨-n, by push_cast; linarith⟩

/-- C5 counterexample: With radius 0, `sample_arc(0°, 90°, 1)` is closed
(first point = last point) although the sweep (90°) is not 360°, refuting
"the result is not closed unless the sweep is exactly 360°" as universally
stated. -/
theorem sample_arc_closed_despite_short_sweep :
    sample_arc 0 0 0 0 90 1 = [(0, 0), (0, 0)] ∧
    (sample_arc 0 0 0 0 90 1).head? = (sample_arc 0 0 0 0 90 1).getLast? ∧
    arc_end 0 90 - radians 0 ≠ radians 360 := by
  have h0 : radians 0 = 0 := by rw [radians]; ring
  have h90 : radians 90 = π / 2 := by rw [radians]; ring
  have h360 : radians 360 = 2 * π := by rw [radians]; ring
  have hend : arc_end 0 90 = π / 2 := by
    rw [arc_end, if_neg, h90]
    rw [h0, h90]
    have := Real.pi_pos
    intro hlt
    nlinarith
  have h : sample_arc 0 0 0 0 90 1 = [(0, 0), (0, 0)] := by
    rw [sample_arc_eq]
    norm_num [List.range_succ]
  refine ⟨h, by rw [h]; rfl, ?_⟩
  rw [hend, h0, h360]
  have := Real.pi_pos
  intro hc
  nlinarith

/-- C5 amended: `sample_arc` treats the end angle as `end + 360°` when
`end < start` and returns `segments+1` points at angles linearly
interpolated from the start angle to the adjusted end angle, both ends
inclusive; `sample_arc(350°, 10°, 2)` sweeps 20° (end treated as 370°), not
340° the short way; and — amended — for a *nonzero radius* the result is
closed only when the adjusted sweep is an integer multiple of 360°. -/
theorem sample_arc_spec_amended :
    (∀ (cx cy r sd ed : ℝ) (k : ℕ),
      sample_arc cx cy r sd ed (k + 1) =
        ((List.range (k + 1 + 1)).map fun (i : ℕ) =>
          (cx + r * Real.cos (radians sd +
             (arc_end sd ed - radians sd) * ((i : ℝ) / ((k + 1 : ℕ) : ℝ))),
           cy + r * Real.sin (radians sd +
             (arc_end sd ed - radians sd) * ((i : ℝ) / ((k + 1 : ℕ) : ℝ))))) ∧
      (sample_arc cx cy r sd ed (k + 1)).length = (k + 1) + 1 ∧
      (sample_arc cx cy r sd ed (k + 1)).head? =
        some (cx + r * Real.cos (radians sd), cy + r * Real.sin (radians sd)) ∧
      (sample_arc cx cy r sd ed (k + 1)).getLast? =
        some (cx + r * Real.cos (arc_end sd ed),
              cy + r * Real.sin (arc_end sd ed)) ∧
      (r ≠ 0 →
        (sample_arc cx cy r sd ed (k + 1)).head? =
          (sample_arc cx cy r sd ed (k + 1)).getLast? →
        ∃ n : ℤ, arc_end sd ed - radians sd = n * (2 * π))) ∧
    (∀ sd ed : ℝ, radians ed < radians sd → arc_end sd ed = radians (ed + 360)) ∧
    (radians 10 < radians 350 ∧ arc_end 350 10 = radians 370 ∧
      arc_end 350 10 - radians 350 = radians 20) := by
  refine ⟨fun cx cy r sd ed k =>
    ⟨sample_arc_eq cx cy r sd ed (k + 1),
     sample_arc_length cx cy r sd ed (k + 1),
     sample_arc_head? cx cy r sd ed (k + 1),
     sample_arc_getLast? cx cy r sd ed k,
     sample_arc_closed_imp cx cy r sd ed k⟩, ?_, ?_, ?_, ?_⟩
  · intro sd ed hlt
    rw [arc_end, if_pos hlt, radians, radians]
    ring
  · rw [radians, radians]
    have := Real.pi_pos
    nlinarith
  · have hlt : radians 10 < radians 350 := by
      rw [radians, radians]
      have := Real.pi_pos
      nlinarith
    rw [arc_end, if_pos hlt, radians, radians]
    ring
  · have hlt : radians 10 < radians 350 := by
      rw [radians, radians]
      have := Real.pi_pos
      nlinarith
    rw [arc_end, if_pos hlt, radians, radians, radians]
    ring

/-- Witness for C5: a full-circle arc (0° to 360°, radius 1) is closed, and
the theorem yields its sweep as an integer multiple of `2π`. -/
theorem sample_arc_spec_amended_witness :
    ∃ n : ℤ, arc_end 0 360 - radians 0 = n * (2 * π) := by
  have h0 : radians 0 = 0 := by rw [radians]; ring
  have h360 : radians 360 = 2 * π := by rw [radians]; ring
  have hend : arc_end 0 360 = 2 * π := by
    rw [arc_end, if_neg, h360]
    rw [h0, h360]
    have := Real.pi_pos
    intro hlt
    nlinarith
  refine (sample_arc_spec_amended.1 0 0 1 0 360 0).2.2.2.2 one_ne_zero ?_
  rw [sample_arc_head?, sample_arc_getLast? 0 0 1 0 360 0, h0, hend,
    Real.cos_two_pi, Real.sin_two_pi, Real.cos_zero, Real.sin_zero]

/-- The first point of a non-degenerate circle sample is `(cx + r, cy)`. -/
lemma sample_circle_head? (cx cy r : ℝ) (k : ℕ) :
    (sample_circle cx cy r (k + 1)).head? = some (cx + r, cy) := by
  rw [sample_circle_succ, List.range_succ_eq_map]
  simp

/-- The closing point of a non-degenerate circle sample duplicates the
first point. -/
lemma sample_circle_getLast? (cx cy r : ℝ) (k : ℕ) :
    (sample_circle cx cy r (k + 1)).getLast? = some (cx + r, cy) := by
  rw [sample_circle_succ, List.getLast?_concat]

/-- C6 counterexample: `sample_circle` with `segments = 0` returns the
empty list — zero points, not the claimed degenerate single-point result. -/
theorem sample_circle_zero_not_single_point :
    sample_circle 0 0 1 0 = [] ∧ ([] : List (ℝ × ℝ)).length ≠ 1 :=
  ⟨sample_circle_zero 0 0 1, by simp⟩

/-- C6 amended: For `segments = k+1 ≥ 1`, `sample_circle` returns the
points at angles `2π·i/segments`, `i < segments`, plus a duplicate of the
first point, so the result has `segments+1` points and first = last; with
`segments = 0` it returns the *empty* list (amended from "a degenerate
single-point result"); `sample_circle((0,0), 1, 48)` has 49 points with
first = last = `(1,0)` exactly. -/
theorem sample_circle_spec_amended :
    (∀ (cx cy r : ℝ) (k : ℕ),
      sample_circle cx cy r (k + 1) =
        ((List.range (k + 1)).map fun (i : ℕ) =>
          (cx + r * Real.cos (2 * π * (i : ℝ) / ((k + 1 : ℕ) : ℝ)),
           cy + r * Real.sin (2 * π * (i : ℝ) / ((k + 1 : ℕ) : ℝ)))) ++
          [(cx + r, cy)] ∧
      (sample_circle cx cy r (k + 1)).length = (k + 1) + 1 ∧
      (sample_circle cx cy r (k + 1)).head? = some (cx + r, cy) ∧
      (sample_circle cx cy r (k + 1)).getLast? = some (cx + r, cy)) ∧
    (∀ cx cy r : ℝ, sample_circle cx cy r 0 = []) ∧
    ((sample_circle 0 0 1 48).length = 49 ∧
      (sample_circle 0 0 1 48).head? = some (1, 0) ∧
      (sample_circle 0 0 1 48).getLast? = some (1, 0)) := by
  refine ⟨fun cx cy r k =>
    ⟨sample_circle_succ cx cy r k, sample_circle_length cx cy r k,
     sample_circle_head? cx cy r k, sample_circle_getLast? cx cy r k⟩,
    fun cx cy r => sample_circle_zero cx cy r, ?_, ?_, ?_⟩
  · simpa using sample_circle_length 0 0 1 47
  · simpa using sample_circle_head? 0 0 1 47
  · simpa using sample_circle_getLast? 0 0 1 47

/-- The ellipse branch with no active transform, with the `let`-bound
`rx`/`ry` of the source spelled out. -/
lemma process_ellipse_none (doc : BlockTable) (segs : ℕ) (eb vb : Bool)
    (fuel : ℕ) (cx cy : ℝ) (major : ℝ × ℝ) ( ratio : ℝ) :
    process_entity doc segs eb vb fuel (.ellipse cx cy major ratio) none =
      ([.polyline ((List.range segs).map fun (i : ℕ) =>
        (cx + Real.sqrt (major.1 ^ 2 + major.2 ^ 2) *
           Real.cos (2 * π * (i : ℝ) / (segs : ℝ)),
         cy + Real.sqrt (major.1 ^ 2 + major.2 ^ 2) * ratio *
           Real.sin (2 * π * (i : ℝ) / (segs : ℝ))))], []) := by
  rw [process_entity]

/-- The ellipse branch under an active transform maps the same samples
through `transform_point`. -/
lemma process_ellipse_some (doc : BlockTable) (segs : ℕ) (eb vb : Bool)
    (fuel : ℕ) (cx cy : ℝ) (major : ℝ × ℝ) ( ratio : ℝ) (t : Xform) :
    process_entity doc segs eb vb fuel (.ellipse cx cy major ratio) (some t) =
      ([.polyline (((List.range segs).map fun (i : ℕ) =>
        (cx + Real.sqrt (major.1 ^ 2 + major.2 ^ 2) *
           Real.cos (2 * π * (i : ℝ) / (segs : ℝ)),
         cy + Real.sqrt (major.1 ^ 2 + major.2 ^ 2) * ratio *
           Real.sin (2 * π * (i : ℝ) / (segs : ℝ)))).map (applyT t))], []) := by
  rw [process_entity]

lemma head?_map_range {α : Type} (f : ℕ → α) (n : ℕ) :
    ((List.range (n + 1)).map f).head? = some (f 0) := by
  rw [List.range_succ_eq_map]
  simp

lemma getLast?_map_range {α : Type} (f : ℕ → α) (n : ℕ) :
    ((List.range (n + 1)).map f).getLast? = some (f n) := by
  rw [List.range_succ, List.map_append, List.map_cons, List.map_nil,
    List.getLast?_concat]

/-- With a nonzero major axis and at least two segments, the ellipse sample
list is not closed: its first and last points differ. -/
lemma ellipse_sample_not_closed (cx cy : ℝ) (major : ℝ × ℝ) ( ratio : ℝ)
    (k : ℕ) (hmaj : major ≠ (0, 0)) :
    ((List.range (k + 1 + 1)).map fun (i : ℕ) =>
      (cx + Real.sqrt (major.1 ^ 2 + major.2 ^ 2) *
         Real.cos (2 * π * (i : ℝ) / ((k + 1 + 1 : ℕ) : ℝ)),
       cy + Real.sqrt (major.1 ^ 2 + major.2 ^ 2) * ratio *
         Real.sin (2 * π * (i : ℝ) / ((k + 1 + 1 : ℕ) : ℝ)))).head? ≠
    ((List.range (k + 1 + 1)).map fun (i : ℕ) =>
      (cx + Real.sqrt (major.1 ^ 2 + major.2 ^ 2) *
         Real.cos (2 * π * (i : ℝ) / ((k + 1 + 1 : ℕ) : ℝ)),
       cy + Real.sqrt (major.1 ^ 2 + major.2 ^ 2) * ratio *
         Real.sin (2 * π * (i : ℝ) / ((k + 1 + 1 : ℕ) : ℝ)))).getLast? := by
  have hpos : 0 < major.1 ^ 2 + major.2 ^ 2 := by
    have h1 : major.1 ≠ 0 ∨ major.2 ≠ 0 := by
      by_contra hcon
      push_neg at hcon
      exact hmaj (Prod.ext hcon.1 hcon.2)
    rcases h1 with h | h
    · have h2 : 0 < major.1 ^ 2 :=
        lt_of_le_of_ne (sq_nonneg major.1) (Ne.symm (pow_ne_zero 2 h))
      linarith [sq_nonneg major.2]
    · have h2 : 0 < major.2 ^ 2 :=
        lt_of_le_of_ne (sq_nonneg major.2) (Ne.symm (pow_ne_zero 2 h))
      linarith [sq_nonneg major.1]
  have hR : 0 < Real.sqrt (major.1 ^ 2 + major.2 ^ 2) := Real.sqrt_pos.2 hpos
  rw [head?_map_range, getLast?_map_range]
  have hden : (0 : ℝ) < ((k + 1 + 1 : ℕ) : ℝ) := by positivity
  intro heq
  rw [Option.some.injEq, Prod.mk.injEq] at heq
  have hx := heq.1
  -- first point angle is 0
  have hzero : 2 * π * ((0 : ℕ) : ℝ) / ((k + 1 + 1 : ℕ) : ℝ) = 0 := by
    push_cast
    ring
  rw [hzero, Real.cos_zero, mul_one] at hx
  -- last point angle lies strictly between 0 and 2π
  set a : ℝ := 2 * π * ((k + 1 : ℕ) : ℝ) / ((k + 1 + 1 : ℕ) : ℝ) with ha
  have ha0 : 0 < a := by positivity
  have ha2 : a < 2 * π := by
    rw [ha, div_lt_iff₀ hden]
    have hk : ((k + 1 : ℕ) : ℝ) < ((k + 1 + 1 : ℕ) : ℝ) := by
      push_cast
      linarith
    nlinarith [Real.pi_pos]
  have hcos : Real.cos a ≠ 1 := by
    intro h1
    have := (Real.cos_eq_one_iff_of_lt_of_lt (by linarith) ha2).1 h1
    linarith
  apply hcos
  have hRR : Real.sqrt (major.1 ^ 2 + major.2 ^ 2) * 1 =
      Real.sqrt (major.1 ^ 2 + major.2 ^ 2) * Real.cos a := by
    rw [mul_one]
    linarith [hx]
  exact (mul_left_cancel₀ (ne_of_gt hR) hRR).symm

/-- C7 counterexample: With `segments = 1` (allowed by the claimed
"segments ≥ 1") the emitted ellipse polyline is a single point, whose first
and last points are equal — the claimed "first and last points differ"
fails. -/
theorem ellipse_single_segment_closed :
    process_entity (fun _ => none) 1 false false 0
        (.ellipse 0 0 (1, 0) 1) none =
      ([.polyline [(1, 0)]], []) ∧
    ([((1 : ℝ), (0 : ℝ))] : List (ℝ × ℝ)).head? =
      ([((1 : ℝ), (0 : ℝ))] : List (ℝ × ℝ)).getLast? := by
  refine ⟨?_, rfl⟩
  rw [process_ellipse_none]
  norm_num [List.range_succ]

/-- C7 amended: The ellipse sampler computes `radiusX` as the
magnitude of the major-axis vector, `radiusY = radiusX · ratio`, and emits
exactly `segments` points (not `segments+1`) at angles `2π·i/segments`;
the polyline is — amended — not closed provided `segments ≥ 2` and the
major-axis vector is nonzero (with `segments = 1` the single sample is
trivially closed). -/
theorem ellipse_sampler_spec_amended :
    (∀ (doc : BlockTable) (segs : ℕ) (eb vb : Bool) (fuel : ℕ)
        (cx cy : ℝ) (major : ℝ × ℝ) ( ratio : ℝ),
      process_entity doc segs eb vb fuel (.ellipse cx cy major ratio) none =
        ([.polyline ((List.range segs).map fun (i : ℕ) =>
          (cx + Real.sqrt (major.1 ^ 2 + major.2 ^ 2) *
             Real.cos (2 * π * (i : ℝ) / (segs : ℝ)),
           cy + Real.sqrt (major.1 ^ 2 + major.2 ^ 2) * ratio *
             Real.sin (2 * π * (i : ℝ) / (segs : ℝ))))], []) ∧
      (∀ t : Xform,
        process_entity doc segs eb vb fuel (.ellipse cx cy major ratio)
            (some t) =
          ([.polyline (((List.range segs).map fun (i : ℕ) =>
            (cx + Real.sqrt (major.1 ^ 2 + major.2 ^ 2) *
               Real.cos (2 * π * (i : ℝ) / (segs : ℝ)),
             cy + Real.sqrt (major.1 ^ 2 + major.2 ^ 2) * ratio *
               Real.sin (2 * π * (i : ℝ) / (segs : ℝ)))).map (applyT t))],
           [])) ∧
      (∃ pts, process_entity doc segs eb vb fuel
          (.ellipse cx cy major ratio) none = ([.polyline pts], []) ∧
        pts.length = segs)) ∧
    (∀ (doc : BlockTable) (eb vb : Bool) (fuel : ℕ) (cx cy : ℝ)
        (major : ℝ × ℝ) ( ratio : ℝ) (k : ℕ),
      major ≠ (0, 0) →
      ∀ pts, (process_entity doc (k + 1 + 1) eb vb fuel
          (.ellipse cx cy major ratio) none).1 = [.polyline pts] →
        pts.head? ≠ pts.getLast?) := by
  constructor
  · intro doc segs eb vb fuel cx cy major ratio
    refine ⟨process_ellipse_none doc segs eb vb fuel cx cy major ratio,
      fun t => process_ellipse_some doc segs eb vb fuel cx cy major ratio t,
      ⟨_, process_ellipse_none doc segs eb vb fuel cx cy major ratio, ?_⟩⟩
    rw [List.length_map, List.length_range]
  · intro doc eb vb fuel cx cy major ratio k hmaj pts hpts
    rw [process_ellipse_none] at hpts
    simp only [List.cons.injEq, OutRec.polyline.injEq, and_true] at hpts
    rw [← hpts]
    exact ellipse_sample_not_closed cx cy major ratio k hmaj

/-- Witness for C7: a 2-segment unit-major-axis ellipse sample is not
closed. -/
theorem ellipse_sampler_spec_amended_witness :
    (((List.range 2).map fun (i : ℕ) =>
      ((0 : ℝ) + Real.sqrt ((1 : ℝ) ^ 2 + (0 : ℝ) ^ 2) *
         Real.cos (2 * π * (i : ℝ) / ((2 : ℕ) : ℝ)),
       (0 : ℝ) + Real.sqrt ((1 : ℝ) ^ 2 + (0 : ℝ) ^ 2) * 1 *
         Real.sin (2 * π * (i : ℝ) / ((2 : ℕ) : ℝ)))).head?) ≠
    (((List.range 2).map fun (i : ℕ) =>
      ((0 : ℝ) + Real.sqrt ((1 : ℝ) ^ 2 + (0 : ℝ) ^ 2) *
         Real.cos (2 * π * (i : ℝ) / ((2 : ℕ) : ℝ)),
       (0 : ℝ) + Real.sqrt ((1 : ℝ) ^ 2 + (0 : ℝ) ^ 2) * 1 *
         Real.sin (2 * π * (i : ℝ) / ((2 : ℕ) : ℝ)))).getLast?) := by
  exact ellipse_sampler_spec_amended.2 (fun _ => none) false false 0 0 0
    (1, 0) 1 0 (by simp) _ (by rw [process_ellipse_none])

/-- C8 counterexample: With no segment count supplied, the argparse
default of the driver (36) is what reaches the circle sampler: the circle
polyline has 37 points, not the 49 a 48-segment default would give. -/
theorem default_circle_segments_cex :
    default_approx_segs = 36 ∧
    process_entity (fun _ => none) default_approx_segs false false 0
        (.circle 0 0 1) none =
      ([.polyline (sample_circle 0 0 1 36), .circle 0 0 1], []) ∧
    (sample_circle 0 0 1 36).length = 37 ∧ (37 : ℕ) ≠ 49 := by
  refine ⟨rfl, by rw [process_entity]; rfl, ?_, by decide⟩
  simpa using sample_circle_length 0 0 1 35

/-- C8 amended: The configuration default is 36 segments for *all*
curve kinds — arcs, circles and ellipses alike; the sampler parameter
defaults (36 for `sample_arc`, 48 for `sample_circle`) exist in their
signatures but are never engaged by the normalizer, which always passes the
configured count explicitly. -/
theorem default_segments_amended :
    default_approx_segs = 36 ∧ sample_arc_default = 36 ∧
    sample_circle_default = 48 ∧
    (∀ (doc : BlockTable) (eb vb : Bool) (fuel : ℕ) (cx cy r sa ea : ℝ),
      process_entity doc default_approx_segs eb vb fuel (.circle cx cy r)
          none =
        ([.polyline (sample_circle cx cy r 36), .circle cx cy r], []) ∧
      process_entity doc default_approx_segs eb vb fuel (.arc cx cy r sa ea)
          none =
        ([.polyline (sample_arc cx cy r sa ea 36), .arc cx cy r sa ea], []) ∧
      (sample_circle cx cy r 36).length = 37 ∧
      (sample_arc cx cy r sa ea 36).length = 37) ∧
    (∀ (doc : BlockTable) (eb vb : Bool) (fuel : ℕ) (cx cy : ℝ)
        (major : ℝ × ℝ) ( ratio : ℝ),
      ∃ pts, process_entity doc default_approx_segs eb vb fuel
          (.ellipse cx cy major ratio) none = ([.polyline pts], []) ∧
        pts.length = 36) := by
  refine ⟨rfl, rfl, rfl, ?_, ?_⟩
  · intro doc eb vb fuel cx cy r sa ea
    refine ⟨by rw [process_entity]; rfl, by rw [process_entity]; rfl, ?_, ?_⟩
    · simpa using sample_circle_length cx cy r 35
    · simpa using sample_arc_length cx cy r sa ea 36
  · intro doc eb vb fuel cx cy major ratio
    refine ⟨_, process_ellipse_none doc default_approx_segs eb vb fuel
      cx cy major ratio, ?_⟩
    rw [List.length_map, List.length_range]
    rfl

/-- C9 counterexample: A lightweight polyline with an empty vertex list
*does* emit a geometry record (a polyline with empty points): the code has
no emptiness guard on the LWPOLYLINE branch. -/
theorem lwpolyline_empty_emits_record :
    process_entity (fun _ => none) 36 false false 0 (.lwpolyline []) none =
      ([.polyline []], []) ∧
    ([OutRec.polyline []] : List OutRec) ≠ [] := by
  exact ⟨by rw [process_entity]; rfl, by simp⟩

/-- C9 amended: A vertex-chain POLYLINE with an empty vertex list
emits no record, and a non-empty one emits one Polyline record with the 2-D
projections of its vertices in order, transformed when a transform is
active; a lightweight LWPOLYLINE, however, always emits exactly one
Polyline record — including an empty-points record for an empty vertex
list. -/
theorem polyline_empty_guard_amended :
    (∀ (doc : BlockTable) (segs : ℕ) (eb vb : Bool) (fuel : ℕ)
        (pt? : Option Xform),
      process_entity doc segs eb vb fuel (.polyline []) pt? = ([], [])) ∧
    (∀ (doc : BlockTable) (segs : ℕ) (eb vb : Bool) (fuel : ℕ)
        (vs : List (ℝ × ℝ × ℝ)),
      process_entity doc segs eb vb fuel (.polyline vs) none =
        (if (vs.map fun v => (v.1, v.2.1)).isEmpty then []
         else [.polyline (vs.map fun v => (v.1, v.2.1))], []) ∧
      ∀ t : Xform,
        process_entity doc segs eb vb fuel (.polyline vs) (some t) =
          (if ((vs.map fun v => (v.1, v.2.1)).map (applyT t)).isEmpty then []
           else [.polyline ((vs.map fun v => (v.1, v.2.1)).map (applyT t))],
           [])) ∧
    (∀ (doc : BlockTable) (segs : ℕ) (eb vb : Bool) (fuel : ℕ)
        (raw : List ((ℝ × ℝ) × List ℝ)),
      process_entity doc segs eb vb fuel (.lwpolyline raw) none =
        ([.polyline (raw.map fun v => (v.1.1, v.1.2))], []) ∧
      ∀ t : Xform,
        process_entity doc segs eb vb fuel (.lwpolyline raw) (some t) =
          ([.polyline ((raw.map fun v => (v.1.1, v.1.2)).map (applyT t))],
           [])) := by
  refine ⟨?_, ?_, ?_⟩
  · intro doc segs eb vb fuel pt?
    cases pt? with
    | none => rw [process_entity]; rfl
    | some t => rw [process_entity]; rfl
  · intro doc segs eb vb fuel vs
    exact ⟨by rw [process_entity], fun t => by rw [process_entity]⟩
  · intro doc segs eb vb fuel raw
    exact ⟨by rw [process_entity], fun t => by rw [process_entity]⟩
